import Mathlib

/-!
Shallow embedding of the fetch/cache/parse layer of `load.go` from the
tiktoken-go repository.  Go byte strings are modelled as `List Nat`
(each element a byte value), Go's `(value, error)` multi-returns as
`Except` or as explicit pairs of options where the source returns both
components at once, and the filesystem / network collaborators as
explicit parameters.
-/

namespace Tiktoken

/-- Byte strings: Go `[]byte` / `string` contents. -/
abbrev Bytes := List Nat

/-- Error values returned by the Go code's collaborators and by the
parsing stage (`base64.CorruptInputError`, `strconv.ErrSyntax/ErrRange`,
`os` errors). Only the identity of the failing operation matters here. -/
inductive GoError where
  | notFound (path : String)
  | fetchFailed (url : String)
  | base64Error (field : Bytes)
  | atoiError (field : Bytes)
  | osError (msg : String)
deriving DecidableEq, Repr

/-- Outcome of the rank-table parsing loop (`loadTiktokenBpe` lines 83-99
of `load.go`).  `crash` models a Go runtime panic: the loop reads
`parts[1]` without checking `len(parts)`, which panics with an
index-out-of-range error when the split produced a single field. -/
inductive ParseResult where
  | ok (table : List (Bytes × Int))
  | error (e : GoError)
  | crash
deriving DecidableEq, Repr

/-- Go `strings.Split(s, sep)` for a single-byte separator, on byte
strings: splits around every occurrence of `sep`; `Split("", sep)`
returns one empty field. -/
def splitByte (sep : Nat) : Bytes → List Bytes
  | [] => [[]]
  | b :: rest =>
    match splitByte sep rest with
    | [] => [[b]]
    | g :: gs => if b = sep then [] :: g :: gs else (b :: g) :: gs

/-- Go `base64.StdEncoding.decodeMap`: 6-bit value of an alphabet byte,
`none` for every byte outside the alphabet (including `=`). -/
def b64Val (c : Nat) : Option Nat :=
  if 65 ≤ c ∧ c ≤ 90 then some (c - 65)        -- A-Z
  else if 97 ≤ c ∧ c ≤ 122 then some (c - 71)  -- a-z
  else if 48 ≤ c ∧ c ≤ 57 then some (c + 4)    -- 0-9
  else if c = 43 then some 62                  -- +
  else if c = 47 then some 63                  -- /
  else none

/-- Quantum loop of Go `base64.Encoding.Decode` (standard encoding,
padding `=` = byte 61), after `\r`/`\n` bytes have been stripped, which
the Go decoder ignores wherever they occur.  Pads may only appear as
`xx==` or `xxx=` in the final quantum, anything after them is trailing
garbage, and an input whose stripped length is not a multiple of four is
corrupt. -/
def decodeClean : Bytes → Except GoError Bytes
  | [] => .ok []
  | c0 :: c1 :: c2 :: c3 :: rest =>
    match b64Val c0, b64Val c1 with
    | some v0, some v1 =>
      (match b64Val c2, b64Val c3 with
       | some v2, some v3 =>
         (match decodeClean rest with
          | .ok bs =>
            .ok ((v0 * 4 + v1 / 16) :: ((v1 % 16) * 16 + v2 / 4) :: ((v2 % 4) * 64 + v3) :: bs)
          | .error e => .error e)
       | some v2, none =>
         if c3 = 61 ∧ rest = [] then .ok [v0 * 4 + v1 / 16, (v1 % 16) * 16 + v2 / 4]
         else .error (.base64Error (c0 :: c1 :: c2 :: c3 :: rest))
       | none, _ =>
         if c2 = 61 ∧ c3 = 61 ∧ rest = [] then .ok [v0 * 4 + v1 / 16]
         else .error (.base64Error (c0 :: c1 :: c2 :: c3 :: rest)))
    | _, _ => .error (.base64Error (c0 :: c1 :: c2 :: c3 :: rest))
  | other => .error (.base64Error other)

/-- Go `base64.StdEncoding.DecodeString`: ignore `\r` (13) and `\n` (10)
everywhere, then decode in four-byte quanta. -/
def goBase64Decode (s : Bytes) : Except GoError Bytes :=
  decodeClean (s.filter fun c => decide (c ≠ 13 ∧ c ≠ 10))

/-- Signed value of a digit string, as Go `strconv.ParseInt`
accumulates it in base 10. -/
def atoiVal (ds : Bytes) (neg : Bool) : Int :=
  if neg then -((ds.foldl (fun a d => 10 * a + (d - 48)) 0 : Nat) : Int)
  else ((ds.foldl (fun a d => 10 * a + (d - 48)) 0 : Nat) : Int)

/-- Digit-string core of Go `strconv.Atoi` (= `ParseInt(s, 10, 0)` with
64-bit `int`): `ds` is the input after the optional sign, `orig` the
whole field (reported in errors).  Overflow of the 64-bit range is
`ErrRange`, hence a non-nil error. -/
def goAtoiCore (orig ds : Bytes) (neg : Bool) : Except GoError Int :=
  if ds = [] then .error (.atoiError orig)
  else if ds.all (fun d => decide (48 ≤ d ∧ d ≤ 57)) then
    if atoiVal ds neg < -(2 ^ 63) ∨ (2 ^ 63 - 1 : Int) < atoiVal ds neg then
      .error (.atoiError orig)
    else .ok (atoiVal ds neg)
  else .error (.atoiError orig)

/-- Go `strconv.Atoi` on a byte string: optional `-` (45) or `+` (43)
sign, then one or more ASCII digits, nothing else. -/
def goAtoi (s : Bytes) : Except GoError Int :=
  match s with
  | [] => .error (.atoiError [])
  | c :: rest =>
    if c = 45 then goAtoiCore s rest true
    else if c = 43 then goAtoiCore s rest false
    else goAtoiCore s s false

/-- Go map assignment `m[k] = v`: overwrite the binding if the key is
present, otherwise add it. -/
def insertRank (m : List (Bytes × Int)) (k : Bytes) (v : Int) : List (Bytes × Int) :=
  if m.any (fun p => decide (p.1 = k)) then
    m.map fun p => if p.1 = k then (k, v) else p
  else m ++ [(k, v)]

/-- Loop body of `loadTiktokenBpe` (`load.go` lines 84-98): skip a line
equal to `""`, split the line on single spaces (byte 32), base64-decode
field 0, return on its error, then read `parts[1]` — a crash when only
one field exists — and `Atoi` it, return on its error, else assign into
the map. -/
def parseLines : List Bytes → List (Bytes × Int) → ParseResult
  | [], acc => .ok acc
  | line :: rest, acc =>
    if line = [] then parseLines rest acc
    else
      match splitByte 32 line with
      | [] => .crash
      | p0 :: ps =>
        match goBase64Decode p0 with
        | .error e => .error e
        | .ok token =>
          match ps with
          | [] => .crash
          | p1 :: _ =>
            match goAtoi p1 with
            | .error e => .error e
            | .ok rank => parseLines rest (insertRank acc token rank)

/-- Parsing stage of `loadTiktokenBpe` (`load.go` lines 83-99): split the
fetched contents on `\n` (byte 10) and run the line loop on an empty
map. -/
def parseBpe (contents : Bytes) : ParseResult :=
  parseLines (splitByte 10 contents) []

/-- Loop body of `LoadTiktokenBpeFromFS` (`load.go` lines 121-135),
translated separately from its own source lines. -/
def parseLinesFS : List Bytes → List (Bytes × Int) → ParseResult
  | [], acc => .ok acc
  | line :: rest, acc =>
    if line = [] then parseLinesFS rest acc
    else
      match splitByte 32 line with
      | [] => .crash
      | p0 :: ps =>
        match goBase64Decode p0 with
        | .error e => .error e
        | .ok token =>
          match ps with
          | [] => .crash
          | p1 :: _ =>
            match goAtoi p1 with
            | .error e => .error e
            | .ok rank => parseLinesFS rest (insertRank acc token rank)

/-- Parsing stage of `LoadTiktokenBpeFromFS` (`load.go` lines 120-136). -/
def parseBpeFS (contents : Bytes) : ParseResult :=
  parseLinesFS (splitByte 10 contents) []

/-- Go `strings.HasPrefix`. -/
def goHasPrefix (s pre : String) : Bool :=
  pre.data.isPrefixOf s.data

/-- Two-element Go `filepath.Join` for already-clean elements: empty
elements are dropped, the rest are joined with a separator. -/
def goFilepathJoin (a b : String) : String :=
  if a = "" then b else if b = "" then a else a ++ "/" ++ b

/-- The ambient state `readFileCached` reads through `os.Getenv` and
`os.TempDir()`.  `os.Getenv` returns `""` both for an unset variable and
for one explicitly set to the empty string, so each field is just the
string the call would return. -/
structure Env where
  tiktokenCacheDir : String
  dataGymCacheDir : String
  tempDir : String
deriving DecidableEq, Repr

/-- Cache-directory resolution of `readFileCached` (`load.go` lines
43-50): `TIKTOKEN_CACHE_DIR` if non-empty, else `DATA_GYM_CACHE_DIR` if
non-empty, else `filepath.Join(os.TempDir(), "data-gym-cache")`. -/
def resolveCacheDir (env : Env) : String :=
  if env.tiktokenCacheDir ≠ "" then env.tiktokenCacheDir
  else if env.dataGymCacheDir ≠ "" then env.dataGymCacheDir
  else goFilepathJoin env.tempDir "data-gym-cache"

/-- The temporary filename of `load.go` line 70:
`cachePath + "." + uuid.New().String() + ".tmp"`. -/
def mkTmpName (cachePath uuidStr : String) : String :=
  cachePath ++ "." ++ uuidStr ++ ".tmp"

/-- Flat model of the on-disk cache: an association from path to file
contents, newest binding first. -/
abbrev FS := List (String × Bytes)

/-- Contents of the file at `p`, `none` when no such file exists. -/
def fsGet (fs : FS) (p : String) : Option Bytes :=
  (fs.find? fun e => decide (e.1 = p)).map (·.2)

/-- Create or replace the file at `p`. -/
def fsPut (fs : FS) (p : String) (c : Bytes) : FS :=
  (p, c) :: fs

/-- Remove the file at `p`. -/
def fsDel (fs : FS) (p : String) : FS :=
  fs.filter fun e => decide (e.1 ≠ p)

/-- Filesystem calls `readFileCached` makes on the cache directory,
passed in as a collaborator so that OS-level failures (a failed
`ioutil.WriteFile` or `os.Rename`) can be modelled. -/
structure DiskOps where
  stat : FS → String → Bool
  read : FS → String → Except GoError Bytes
  write : FS → String → Bytes → Except GoError FS
  rename : FS → String → String → Except GoError FS

/-- The fault-free filesystem: `stat` succeeds exactly on existing
files, `read` returns their contents, `write` installs the full
contents, `rename` atomically moves an existing file. -/
def realDisk : DiskOps where
  stat := fun fs p => (fsGet fs p).isSome
  read := fun fs p =>
    match fsGet fs p with
    | some c => .ok c
    | none => .error (.notFound p)
  write := fun fs p c => .ok (fsPut fs p c)
  rename := fun fs src dst =>
    match fsGet fs src with
    | some c => .ok (fsPut (fsDel fs src) dst c)
    | none => .error (.osError "rename")

/-- Per-call collaborators of `readFileCached`: the environment
snapshot, the hex SHA-1 digest function (`crypto/sha1` + `%x`
formatting, opaque here), the fresh UUID string this call draws, and the
two byte sources behind `readFile` — `os.Open`/`ReadAll` for local
paths and `http.Get`/`ReadAll` for URLs, each `bytes or error` as the
specification models them. -/
structure Collab where
  env : Env
  sha1Hex : String → String
  uuidStr : String
  osRead : String → Except GoError Bytes
  httpGet : String → Except GoError Bytes

/-- `readFile` (`load.go` lines 24-40): a path without an `http://` or
`https://` scheme is opened and read from the local filesystem;
otherwise one GET request is issued and its full body returned, any
collaborator error propagating unchanged. -/
def readFile (osRead httpGet : String → Except GoError Bytes) (blobpath : String) :
    Except GoError Bytes :=
  if !goHasPrefix blobpath "http://" && !goHasPrefix blobpath "https://" then
    osRead blobpath
  else
    httpGet blobpath

/-- The GET requests a `readFile` call issues, read off the same source:
none on the local branch, exactly one — to `blobpath` — on the URL
branch. -/
def readFileGets (blobpath : String) : List String :=
  if !goHasPrefix blobpath "http://" && !goHasPrefix blobpath "https://" then
    []
  else
    [blobpath]

/-- `readFileCached` (`load.go` lines 42-75).  Result: the Go pair
`(contents, err)` — line 74 returns fetched contents together with a
possibly non-nil rename error — the filesystem after the call, and the
number of `readFile` (Source Reader) invocations the call performed.
`os.MkdirAll` only touches directories, which the flat file map does
not track (its error is also ignored by the source). -/
def readFileCached (co : Collab) (d : DiskOps) (fs : FS) (blobpath : String) :
    (Option Bytes × Option GoError) × FS × Nat :=
  let cacheDir := resolveCacheDir co.env
  if cacheDir = "" then
    -- disable caching
    match readFile co.osRead co.httpGet blobpath with
    | .ok c => ((some c, none), fs, 1)
    | .error e => ((none, some e), fs, 1)
  else
    let cachePath := goFilepathJoin cacheDir (co.sha1Hex blobpath)
    if d.stat fs cachePath then
      match d.read fs cachePath with
      | .ok c => ((some c, none), fs, 0)
      | .error e => ((none, some e), fs, 0)
    else
      match readFile co.osRead co.httpGet blobpath with
      | .error e => ((none, some e), fs, 1)
      | .ok contents =>
        let tmpFilename := mkTmpName cachePath co.uuidStr
        match d.write fs tmpFilename contents with
        | .error e => ((none, some e), fs, 1)
        | .ok fs1 =>
          match d.rename fs1 tmpFilename cachePath with
          | .ok fs2 => ((some contents, none), fs2, 1)
          | .error e => ((some contents, some e), fs1, 1)

/-- `loadTiktokenBpe` (`load.go` lines 77-100): fetch through the cache,
return the error when `err != nil` (discarding any contents that came
with it), otherwise parse the contents (`string(nil)` is `""`). -/
def loadTiktokenBpe (co : Collab) (d : DiskOps) (fs : FS) (tiktokenBpeFile : String) :
    ParseResult × FS × Nat :=
  match readFileCached co d fs tiktokenBpeFile with
  | ((_, some e), fs', n) => (.error e, fs', n)
  | ((some contents, none), fs', n) => (parseBpe contents, fs', n)
  | ((none, none), fs', n) => (parseBpe [], fs', n)

/-- Observable filesystem states during the cache-miss population
protocol of `load.go` lines 69-74, run from state `fs` with fetched
bytes `contents`: nothing written yet; the temp-file write interrupted,
leaving any prefix of `contents` at `tmp`; the temp file fully written;
the rename performed.  The rename only happens after a complete write,
and it is the only step that touches `final`. -/
inductive CachePopState (fs : FS) (tmp final : String) (contents : Bytes) : FS → Prop
  | start : CachePopState fs tmp final contents fs
  | interrupted (pre : Bytes) (h : ∃ t, pre ++ t = contents) :
      CachePopState fs tmp final contents (fsPut fs tmp pre)
  | written : CachePopState fs tmp final contents (fsPut fs tmp contents)
  | renamed :
      CachePopState fs tmp final contents
        (fsPut (fsDel (fsPut fs tmp contents) tmp) final contents)

/-- True exactly on the crash outcome. -/
def isCrash : ParseResult → Bool
  | .crash => true
  | _ => false

/-- True exactly on the error outcome of a decode. -/
def exceptIsError : Except GoError Bytes → Bool
  | .error _ => true
  | .ok _ => false

/-- Concrete stand-in digest collaborator used when evaluating the model
on closed inputs. -/
def wSha : String → String := fun _ => "k"

/-- Concrete stand-in local reader returning a fixed payload. -/
def wOsRead : String → Except GoError Bytes := fun _ => .ok [1, 2]

/-- Concrete stand-in HTTP collaborator returning a fixed body. -/
def wHttpGet : String → Except GoError Bytes := fun _ => .ok [3, 4]

/-- Concrete environment with the primary override set to `"d"`. -/
def wEnv : Env := ⟨"d", "", "/tmp"⟩

/-- Concrete collaborator bundle for a first call (UUID `u1`). -/
def wCollab : Collab := ⟨wEnv, wSha, "u1", wOsRead, wHttpGet⟩

/-- Concrete collaborator bundle for a second call (UUID `u2`). -/
def wCollab2 : Collab := ⟨wEnv, wSha, "u2", wOsRead, wHttpGet⟩

/-- A disk whose rename step always fails at the OS level. -/
def renameFailDisk : DiskOps :=
  { realDisk with rename := fun _ _ _ => .error (.osError "rename") }

/-! Helper lemmas. -/

theorem splitByte_ne_nil (sep : Nat) (bs : Bytes) : splitByte sep bs ≠ [] := by
  cases bs with
  | nil => simp [splitByte]
  | cons b rest =>
    simp only [splitByte]
    split
    · simp
    · split <;> simp

theorem goFilepathJoin_ne_empty (a b : String) (hb : b ≠ "") :
    goFilepathJoin a b ≠ "" := by
  unfold goFilepathJoin
  split
  · exact hb
  · intro h
    have hlen := congrArg String.length h
    simp only [String.length_append] at hlen
    have h1 : ("/" : String).length = 1 := rfl
    have h0 : ("" : String).length = 0 := rfl
    omega

theorem resolveCacheDir_ne_empty (env : Env) : resolveCacheDir env ≠ "" := by
  unfold resolveCacheDir
  split
  · assumption
  · split
    · assumption
    · exact goFilepathJoin_ne_empty _ _ (by decide)

theorem mkTmpName_ne (p u : String) : mkTmpName p u ≠ p := by
  intro h
  have hlen := congrArg String.length h
  simp only [mkTmpName, String.length_append] at hlen
  have h1 : ("." : String).length = 1 := rfl
  have h4 : (".tmp" : String).length = 4 := rfl
  omega

theorem mkTmpName_injOn (p u u' : String) (h : mkTmpName p u = mkTmpName p u') :
    u = u' := by
  have hd := congrArg String.data h
  simp only [mkTmpName, String.data_append] at hd
  have h1 := List.append_cancel_right hd
  have h2 := List.append_cancel_left h1
  cases u; cases u'
  exact congrArg String.mk h2

theorem fsGet_fsPut_self (fs : FS) (p : String) (c : Bytes) :
    fsGet (fsPut fs p c) p = some c := by
  simp [fsGet, fsPut, List.find?]

theorem fsGet_fsPut_ne (fs : FS) (p q : String) (c : Bytes) (h : p ≠ q) :
    fsGet (fsPut fs p c) q = fsGet fs q := by
  simp [fsGet, fsPut, List.find?, h]

theorem goAtoiCore_ok_range (orig ds : Bytes) (neg : Bool) (i : Int)
    (h : goAtoiCore orig ds neg = .ok i) : -(2 ^ 63) ≤ i ∧ i ≤ 2 ^ 63 - 1 := by
  unfold goAtoiCore at h
  split at h
  · simp at h
  · split at h
    · split at h
      · simp at h
      · rename_i hrange
        push_neg at hrange
        cases h
        exact ⟨hrange.1, hrange.2⟩
    · simp at h

theorem goAtoi_ok_range (s : Bytes) (i : Int) (h : goAtoi s = .ok i) :
    -(2 ^ 63) ≤ i ∧ i ≤ 2 ^ 63 - 1 := by
  cases s with
  | nil => simp [goAtoi] at h
  | cons c rest =>
    simp only [goAtoi] at h
    split at h
    · exact goAtoiCore_ok_range _ _ _ _ h
    · split at h
      · exact goAtoiCore_ok_range _ _ _ _ h
      · exact goAtoiCore_ok_range _ _ _ _ h

theorem mem_insertRank (m : List (Bytes × Int)) (k : Bytes) (v : Int)
    (kv : Bytes × Int) (h : kv ∈ insertRank m k v) : kv ∈ m ∨ kv = (k, v) := by
  unfold insertRank at h
  split at h
  · rcases List.mem_map.mp h with ⟨p, hp, hf⟩
    by_cases hk : p.1 = k
    · simp only [hk, if_pos rfl] at hf
      right; exact hf.symm
    · simp only [if_neg hk] at hf
      left; exact hf ▸ hp
  · rcases List.mem_append.mp h with h' | h'
    · left; exact h'
    · right; simpa using h'

theorem parseLines_ok_range (lines : List Bytes) (acc tbl : List (Bytes × Int))
    (hacc : ∀ kv ∈ acc, -(2 ^ 63) ≤ kv.2 ∧ kv.2 ≤ 2 ^ 63 - 1)
    (h : parseLines lines acc = .ok tbl) :
    ∀ kv ∈ tbl, -(2 ^ 63) ≤ kv.2 ∧ kv.2 ≤ 2 ^ 63 - 1 := by
  induction lines generalizing acc with
  | nil =>
    simp only [parseLines] at h
    cases h
    exact hacc
  | cons line rest ih =>
    simp only [parseLines] at h
    split at h
    · exact ih acc hacc h
    · split at h
      · cases h
      · rename_i p0 ps
        split at h
        · cases h
        · rename_i token htok
          split at h
          · cases h
          · rename_i p1 _
            split at h
            · cases h
            · rename_i rank hrank
              refine ih _ ?_ h
              intro kv hkv
              rcases mem_insertRank _ _ _ _ hkv with h' | h'
              · exact hacc kv h'
              · subst h'
                exact goAtoi_ok_range _ _ hrank

theorem splitByte_cons (sep : Nat) (bs : Bytes) :
    ∃ p0 ps, splitByte sep bs = p0 :: ps := by
  cases hsb : splitByte sep bs with
  | nil => exact absurd hsb (splitByte_ne_nil sep bs)
  | cons a b => exact ⟨a, b, rfl⟩

theorem parseLines_no_crash (lines : List Bytes) (acc : List (Bytes × Int))
    (h : ∀ line ∈ lines, line ≠ [] →
      exceptIsError (goBase64Decode ((splitByte 32 line).headD [])) = true ∨
        2 ≤ (splitByte 32 line).length) :
    isCrash (parseLines lines acc) = false := by
  induction lines generalizing acc with
  | nil => rfl
  | cons line rest ih =>
    simp only [parseLines]
    by_cases hl : line = []
    · rw [if_pos hl]
      exact ih acc fun l hm => h l (List.mem_cons_of_mem _ hm)
    · rw [if_neg hl]
      have hline := h line (List.mem_cons_self _ _) hl
      obtain ⟨p0, ps, hsp⟩ := splitByte_cons 32 line
      rw [hsp] at hline
      simp only [List.headD_cons] at hline
      simp only [hsp]
      cases hdec : goBase64Decode p0 with
      | error e => rfl
      | ok token =>
        dsimp only
        rw [hdec] at hline
        cases ps with
        | nil =>
          rcases hline with hbad | hlen
          · exact absurd hbad (by simp [exceptIsError])
          · simp at hlen
        | cons p1 ps2 =>
          dsimp only
          cases goAtoi p1 with
          | error e => rfl
          | ok rank => exact ih _ fun l hm => h l (List.mem_cons_of_mem _ hm)

theorem parseLines_eq_parseLinesFS (lines : List Bytes) (acc : List (Bytes × Int)) :
    parseLines lines acc = parseLinesFS lines acc := by
  induction lines generalizing acc with
  | nil => rfl
  | cons line rest ih =>
    simp only [parseLines, parseLinesFS]
    by_cases hl : line = []
    · rw [if_pos hl, if_pos hl]
      exact ih acc
    · rw [if_neg hl, if_neg hl]
      obtain ⟨p0, ps, hsp⟩ := splitByte_cons 32 line
      simp only [hsp]
      cases goBase64Decode p0 with
      | error e => rfl
      | ok token =>
        dsimp only
        cases ps with
        | nil => rfl
        | cons p1 ps2 =>
          dsimp only
          cases goAtoi p1 with
          | error e => rfl
          | ok rank => exact ih _

/-! Claim theorems. -/

/-- C1, counterexample: the claim says every malformed non-empty line —
including a line without two space-separated fields — surfaces as a
`ParseError` and the parser never crashes.  On the input `"QUJD"` (a
single field that is valid base64, so the decode step succeeds and
`parts[1]` is then read out of range) the parser crashes instead. -/
theorem c1_single_field_crashes : parseBpe [81, 85, 74, 68] = ParseResult.crash := by
  decide

/-- C1 (amended): parsing returns a RankTable or an error — it never
crashes — provided every non-empty line either has a first
space-separated field that fails base64 decoding or has at least two
space-separated fields; a non-empty line outside this set (a lone field
that decodes successfully, such as `"QUJD"` or a bare carriage return)
instead panics with an index-out-of-range error. -/
theorem c1_parser_totality_amended (contents : Bytes)
    (h : ∀ line ∈ splitByte 10 contents, line ≠ [] →
      exceptIsError (goBase64Decode ((splitByte 32 line).headD [])) = true ∨
        2 ≤ (splitByte 32 line).length) :
    isCrash (parseBpe contents) = false :=
  parseLines_no_crash _ _ h

/-- C1 witness: on `"QQ== 1"` every line has two fields, so the amended
theorem applies and parsing does not crash. -/
theorem c1_witness :
    (∀ line ∈ splitByte 10 [81, 81, 61, 61, 32, 49], line ≠ [] →
      exceptIsError (goBase64Decode ((splitByte 32 line).headD [])) = true ∨
        2 ≤ (splitByte 32 line).length) ∧
    isCrash (parseBpe [81, 81, 61, 61, 32, 49]) = false :=
  ⟨by decide, c1_parser_totality_amended [81, 81, 61, 61, 32, 49] (by decide)⟩

/-- C8, counterexample: the claim says a second field that is not a
non-negative decimal integer — for example a negative number — yields a
`ParseError`.  `strconv.Atoi` accepts an optional sign, so the line
`"QUJD -5"` parses successfully into a table entry with rank `-5`. -/
theorem c8_negative_rank_accepted :
    parseBpe [81, 85, 74, 68, 32, 45, 53] = ParseResult.ok [([65, 66, 67], -5)] := by
  decide

/-- C8 (amended): every rank in a successfully parsed RankTable is a
signed integer in the 64-bit range (a second field that is not a
syntactically valid optionally-signed decimal integer, or one out of
that range, yields a `ParseError`), but ranks are not restricted to
non-negative values: a negative decimal is accepted as a table entry. -/
theorem c8_rank_range_amended (contents : Bytes) (tbl : List (Bytes × Int))
    (h : parseBpe contents = ParseResult.ok tbl) :
    ∀ kv ∈ tbl, -(2 ^ 63) ≤ kv.2 ∧ kv.2 ≤ 2 ^ 63 - 1 :=
  parseLines_ok_range _ _ _ (by simp) h

/-- C8 witness: `"QUJD 1"` parses into a one-entry table whose rank is
in the 64-bit range. -/
theorem c8_witness :
    parseBpe [81, 85, 74, 68, 32, 49] = ParseResult.ok [([65, 66, 67], 1)] ∧
    (-(2 ^ 63) ≤ (1 : Int) ∧ (1 : Int) ≤ 2 ^ 63 - 1) :=
  ⟨by decide,
    c8_rank_range_amended [81, 85, 74, 68, 32, 49] [([65, 66, 67], 1)] (by decide)
      ([65, 66, 67], 1) (by decide)⟩

/-- C9: the parsing stage of the cache-backed loader (`loadTiktokenBpe`)
and of the embedded-resource loader (`LoadTiktokenBpeFromFS`) consume
every byte sequence identically: equal tables on success, the same
error or crash otherwise. -/
theorem c9_parse_paths_agree (contents : Bytes) : parseBpe contents = parseBpeFS contents :=
  parseLines_eq_parseLinesFS (splitByte 10 contents) []

/-- C10: the line loop skips exactly the lines equal to the empty
string; a whitespace-only line is processed instead of ignored — a
single space (`[32]`) fails integer parsing of the empty second field,
and a lone carriage return (`[13]`, as left by CRLF endings) is
swallowed by the base64 decoder and then crashes on the missing second
field — so in both cases the load call fails rather than silently
skipping the line. -/
theorem c10_skip_only_exactly_empty :
    (∀ rest acc, parseLines ([] :: rest) acc = parseLines rest acc) ∧
    (∀ rest acc, parseLines ([32] :: rest) acc = ParseResult.error (GoError.atoiError [])) ∧
    (∀ rest acc, parseLines ([13] :: rest) acc = ParseResult.crash) ∧
    parseBpe [32] = ParseResult.error (GoError.atoiError []) ∧
    parseBpe [13] = ParseResult.crash :=
  ⟨fun _ _ => rfl, fun _ _ => rfl, fun _ _ => rfl, by decide, by decide⟩

/-- C2: during cache-miss population the temporary filename differs from
the final path and is injective in the UUID suffix (distinct writers use
distinct temp files), and in every state reachable by the write
protocol — including an interrupted temp-file write that left only a
prefix of the payload — the final path holds either nothing or the
complete fetched bytes, because only the atomic rename step touches
it. -/
theorem c2_atomic_cache_visibility :
    (∀ p u, (mkTmpName p u == p) = false) ∧
    (∀ p u u', mkTmpName p u = mkTmpName p u' → u = u') ∧
    (∀ (fs : FS) (p u : String) (contents : Bytes) (fs' : FS),
      fsGet fs p = none →
      CachePopState fs (mkTmpName p u) p contents fs' →
      fsGet fs' p = none ∨ fsGet fs' p = some contents) := by
  refine ⟨fun p u => beq_eq_false_iff_ne.mpr (mkTmpName_ne p u),
    fun p u u' h => mkTmpName_injOn p u u' h,
    fun fs p u contents fs' hmiss hreach => ?_⟩
  cases hreach with
  | start => exact Or.inl hmiss
  | interrupted pre hpre =>
    exact Or.inl ((fsGet_fsPut_ne _ _ _ _ (mkTmpName_ne p u)).trans hmiss)
  | written =>
    exact Or.inl ((fsGet_fsPut_ne _ _ _ _ (mkTmpName_ne p u)).trans hmiss)
  | renamed => exact Or.inr (fsGet_fsPut_self _ _ _)

/-- C2 witness: instantiated on an empty cache, key `"d/k"`, UUID
`"u1"`, and payload `[7]`, at the fully-written-temp-file state. -/
theorem c2_witness :
    (fsGet ([] : FS) "d/k" = none ∧ ("a" : String) = "a") ∧
    (fsGet (fsPut ([] : FS) (mkTmpName "d/k" "u1") [7]) "d/k" = none ∨
      fsGet (fsPut ([] : FS) (mkTmpName "d/k" "u1") [7]) "d/k" = some [7]) :=
  ⟨⟨by decide, c2_atomic_cache_visibility.2.1 "d/k" "a" "a" rfl⟩,
    c2_atomic_cache_visibility.2.2 [] "d/k" "u1" [7] _ (by decide) CachePopState.written⟩

/-- C3: for every identifier carrying an `http://` or `https://` scheme,
`readFile` delegates to the single-GET HTTP collaborator — issuing
exactly one GET request, to that identifier — propagating any error the
collaborator reports (transport failure, or a non-success status when
the collaborator surfaces it as an error) and otherwise returning the
full body the collaborator produced. -/
theorem c3_http_get (osRead httpGet : String → Except GoError Bytes) (url : String)
    (h : goHasPrefix url "http://" = true ∨ goHasPrefix url "https://" = true) :
    readFile osRead httpGet url = httpGet url ∧ readFileGets url = [url] := by
  unfold readFile readFileGets
  rcases h with h | h <;> simp [h]

/-- C3 witness: on the URL `"http://host/x"` the call equals the HTTP
collaborator's answer and issues one GET. -/
theorem c3_witness :
    (goHasPrefix "http://host/x" "http://" = true ∨
      goHasPrefix "http://host/x" "https://" = true) ∧
    (readFile wOsRead wHttpGet "http://host/x" = wHttpGet "http://host/x" ∧
      readFileGets "http://host/x" = ["http://host/x"]) :=
  ⟨Or.inl (by decide), c3_http_get wOsRead wHttpGet "http://host/x" (Or.inl (by decide))⟩

/-- C4: the claim says an explicitly empty cache-directory override
disables caching.  In the code this configuration is unreachable:
`os.Getenv` cannot distinguish an empty-set variable from an unset one,
so resolution falls through to the temp-directory default and never
yields `""` for any environment — the `cacheDir == ""` disable branch
is dead code, and with the override explicitly empty a cache file is
still written. -/
theorem c4_cache_disable_unreachable :
    (∀ env : Env, (resolveCacheDir env == "") = false) ∧
    resolveCacheDir ⟨"", "", "/tmp"⟩ = "/tmp/data-gym-cache" ∧
    fsGet ((readFileCached ⟨⟨"", "", "/tmp"⟩, wSha, "u1", wOsRead, wHttpGet⟩
        realDisk [] "p").2.1) (goFilepathJoin "/tmp/data-gym-cache" "k") = some [1, 2] :=
  ⟨fun env => beq_eq_false_iff_ne.mpr (resolveCacheDir_ne_empty env), by decide, by decide⟩

/-- C5: on a cache miss where the fetch succeeds, the temp-file write
succeeds, and the final rename fails, `readFileCached` returns the Go
pair of the fetched bytes together with the rename error, and the
caller `loadTiktokenBpe` checks the error first and so surfaces the
error, discarding the fetched bytes rather than parsing them. -/
theorem c5_rename_failure_surfaces (co : Collab) (d : DiskOps) (fs fs1 : FS)
    (path : String) (contents : Bytes) (e : GoError)
    (hstat : d.stat fs (goFilepathJoin (resolveCacheDir co.env) (co.sha1Hex path)) = false)
    (hfetch : readFile co.osRead co.httpGet path = .ok contents)
    (hwrite : d.write fs
      (mkTmpName (goFilepathJoin (resolveCacheDir co.env) (co.sha1Hex path)) co.uuidStr)
      contents = .ok fs1)
    (hrename : d.rename fs1
      (mkTmpName (goFilepathJoin (resolveCacheDir co.env) (co.sha1Hex path)) co.uuidStr)
      (goFilepathJoin (resolveCacheDir co.env) (co.sha1Hex path)) = .error e) :
    readFileCached co d fs path = ((some contents, some e), fs1, 1) ∧
    loadTiktokenBpe co d fs path = (.error e, fs1, 1) := by
  have hne := resolveCacheDir_ne_empty co.env
  have hcall : readFileCached co d fs path = ((some contents, some e), fs1, 1) := by
    unfold readFileCached
    simp only [if_neg hne, hstat, Bool.false_eq_true, if_neg (Bool.false_ne_true ∘ id),
      hfetch, hwrite, hrename]
    simp [hstat]
  refine ⟨hcall, ?_⟩
  unfold loadTiktokenBpe
  rw [hcall]

/-- C5 witness: concrete collaborators, a disk whose rename always
fails, payload `[1, 2]`. -/
theorem c5_witness :
    (renameFailDisk.stat []
        (goFilepathJoin (resolveCacheDir wEnv) (wSha "p")) = false ∧
      readFile wOsRead wHttpGet "p" = .ok [1, 2] ∧
      renameFailDisk.write []
        (mkTmpName (goFilepathJoin (resolveCacheDir wEnv) (wSha "p")) wCollab.uuidStr)
        [1, 2] = .ok [("d/k.u1.tmp", [1, 2])] ∧
      renameFailDisk.rename [("d/k.u1.tmp", [1, 2])]
        (mkTmpName (goFilepathJoin (resolveCacheDir wEnv) (wSha "p")) wCollab.uuidStr)
        (goFilepathJoin (resolveCacheDir wEnv) (wSha "p")) = .error (.osError "rename")) ∧
    (readFileCached wCollab renameFailDisk [] "p" =
        ((some [1, 2], some (.osError "rename")), [("d/k.u1.tmp", [1, 2])], 1) ∧
      loadTiktokenBpe wCollab renameFailDisk [] "p" =
        (.error (.osError "rename"), [("d/k.u1.tmp", [1, 2])], 1)) :=
  ⟨⟨by decide, by rfl, by rfl, by rfl⟩,
    c5_rename_failure_surfaces wCollab renameFailDisk [] [("d/k.u1.tmp", [1, 2])] "p"
      [1, 2] (.osError "rename") (by decide) (by rfl) (by rfl) (by rfl)⟩

/-- C6: when a file already exists at `CacheDirectory/CacheKey`,
`readFileCached` returns that file's full contents, leaves the
filesystem unchanged, and performs zero Source Reader invocations. -/
theorem c6_cache_hit_no_fetch (co : Collab) (fs : FS) (path : String) (c : Bytes)
    (hhit : fsGet fs (goFilepathJoin (resolveCacheDir co.env) (co.sha1Hex path)) = some c) :
    readFileCached co realDisk fs path = ((some c, none), fs, 0) := by
  have hne := resolveCacheDir_ne_empty co.env
  unfold readFileCached
  simp [if_neg hne, realDisk, hhit]

/-- C6 witness: a one-file cache holding `[9]` under the key of `"p"`. -/
theorem c6_witness :
    fsGet [("d/k", [9])] (goFilepathJoin (resolveCacheDir wEnv) (wSha "p")) = some [9] ∧
    readFileCached wCollab realDisk [("d/k", [9])] "p" = ((some [9], none), [("d/k", [9])], 0) :=
  ⟨by decide, c6_cache_hit_no_fetch wCollab [("d/k", [9])] "p" [9] (by decide)⟩

/-- C7: from an unpopulated cache, with a fixed source payload, the
first `readFileCached` call returns the payload, afterwards a file
exists at `CacheDirectory/hash(I)` holding exactly the returned bytes,
and a second call (with a fresh UUID) returns byte-identical contents. -/
theorem c7_get_or_fetch_idempotent (env : Env) (sha : String → String) (u1 u2 : String)
    (osR hGet : String → Except GoError Bytes) (fs : FS) (path cachePath : String)
    (payload : Bytes)
    (hcp : cachePath = goFilepathJoin (resolveCacheDir env) (sha path))
    (hmiss : fsGet fs cachePath = none)
    (hfetch : readFile osR hGet path = .ok payload) :
    (readFileCached ⟨env, sha, u1, osR, hGet⟩ realDisk fs path).1 = (some payload, none) ∧
    fsGet ((readFileCached ⟨env, sha, u1, osR, hGet⟩ realDisk fs path).2.1) cachePath =
      some payload ∧
    (readFileCached ⟨env, sha, u2, osR, hGet⟩ realDisk
        ((readFileCached ⟨env, sha, u1, osR, hGet⟩ realDisk fs path).2.1) path).1 =
      (some payload, none) := by
  subst hcp
  have hne := resolveCacheDir_ne_empty env
  have hcall1 : readFileCached ⟨env, sha, u1, osR, hGet⟩ realDisk fs path =
      ((some payload, none),
        fsPut (fsDel (fsPut fs
            (mkTmpName (goFilepathJoin (resolveCacheDir env) (sha path)) u1) payload)
          (mkTmpName (goFilepathJoin (resolveCacheDir env) (sha path)) u1))
          (goFilepathJoin (resolveCacheDir env) (sha path)) payload, 1) := by
    unfold readFileCached
    simp [if_neg hne, realDisk, hmiss, hfetch, fsGet_fsPut_self]
  refine ⟨by rw [hcall1], ?_, ?_⟩
  · rw [hcall1]
    exact fsGet_fsPut_self _ _ _
  · rw [hcall1]
    unfold readFileCached
    simp [if_neg hne, realDisk, fsGet_fsPut_self]

/-- C7 witness: empty cache, payload `[1, 2]`, UUIDs `u1` then `u2`. -/
theorem c7_witness :
    (("d/k" : String) = goFilepathJoin (resolveCacheDir wEnv) (wSha "p") ∧
      fsGet ([] : FS) "d/k" = none ∧
      readFile wOsRead wHttpGet "p" = .ok [1, 2]) ∧
    ((readFileCached ⟨wEnv, wSha, "u1", wOsRead, wHttpGet⟩ realDisk [] "p").1 =
        (some [1, 2], none) ∧
      fsGet ((readFileCached ⟨wEnv, wSha, "u1", wOsRead, wHttpGet⟩ realDisk [] "p").2.1)
        "d/k" = some [1, 2] ∧
      (readFileCached ⟨wEnv, wSha, "u2", wOsRead, wHttpGet⟩ realDisk
          ((readFileCached ⟨wEnv, wSha, "u1", wOsRead, wHttpGet⟩ realDisk [] "p").2.1)
          "p").1 = (some [1, 2], none)) :=
  ⟨⟨by decide, by decide, by rfl⟩,
    c7_get_or_fetch_idempotent wEnv wSha "u1" "u2" wOsRead wHttpGet [] "p" "d/k" [1, 2]
      (by decide) (by decide) (by rfl)⟩

end Tiktoken
